import Mathlib

/-! Verification of the smartcols filter expression engine
(`libsmartcols/src/filter-expr.c`): expression-node construction, datatype
resolution, casting, short-circuit evaluation, reference-count behaviour and
the diagnostic dump.  The collaborators that live outside this file's C
source (`filter.c`, `filter-param.c`, `smartcolsP.h`) are modelled from the
specification; every such definition carries a doc comment starting
"Modelled from the spec".  Machine state that matters to the claims —
reference counts of nodes and of the temporaries the evaluator creates — is
made explicit as a small heap of reference counts indexed by node ids. -/

namespace Smartcols

/-- Modelled from the spec (§3): the operator tag of an expression node.
The enum `filter_etype` is declared in `smartcolsP.h`, which is not among
the sources; its constants are exactly the ones `filter-expr.c` matches on.
`NEG` is the NOT operator. -/
inductive filter_etype
  | AND
  | OR
  | EQ
  | NE
  | LE
  | LT
  | GE
  | GT
  | REG
  | NREG
  | NEG
deriving DecidableEq, Repr

/-- Modelled from the spec (§3): runtime data types of parameter values
(`enum filter_data`, declared in `smartcolsP.h`, not among the sources):
None, Boolean, String, Integer, Float. -/
inductive filter_data
  | NONE
  | BOOLEAN
  | STRING
  | INTEGER
  | FLOAT
deriving DecidableEq, Repr

/-- Modelled from the spec (§3): a literal parameter value, a tagged union
matching the type tag.  Holder parameters resolve their value per row
(inside the row oracle below), so no float payload is needed here. -/
inductive pvalue
  | vnone
  | vbool (b : Bool)
  | vstr (s : String)
  | vint (i : Int)
deriving DecidableEq, Repr

/-- Modelled from the spec (§3): the payload of a parameter node
(`struct filter_param` lives in `filter-param.c`, not among the sources):
a runtime type tag, a mode flag distinguishing holder from literal, and
the literal value. -/
structure filter_param where
  type : filter_data
  holder : Bool
  val : pvalue
deriving DecidableEq, Repr

/-- The expression tree.  `expr` embeds `struct filter_expr`
(filter-expr.c lines 8–14): an operator tag plus nullable left and right
child pointers (`none` is NULL).  `param` is a parameter leaf.
`none_node` is modelled from the spec (§7, InvalidOperand: "a node type not
expected by the operator, e.g. malformed tree"): a node whose discriminant
is neither of the two expected kinds; the discriminant enum lives in
`smartcolsP.h`, not among the sources. -/
inductive filter_node
  | expr (etype : filter_etype) (left right : Option filter_node)
  | param (p : filter_param)
  | none_node

/-- Embeds `filter_new_expr` (filter-expr.c lines 16–46).  `__filter_new_node`
(filter.c, not among the sources) is modelled from the spec as returning a
zero-initialized node, so both child pointers start absent; the switch then
stores both children for the ten binary operators and only the right child
for `NEG`. -/
def filter_new_expr (etype : filter_etype) (left right : Option filter_node) :
    filter_node :=
  match etype with
  | .AND | .OR | .EQ | .NE | .LE | .LT | .GE | .GT | .REG | .NREG =>
      .expr etype left right
  | .NEG => .expr etype none right

/-- Embeds `node_get_datatype` (filter-expr.c lines 130–139): an expression
node has datatype Boolean, a parameter node its stored type, anything else
falls through to `F_DATA_NONE`. -/
def node_get_datatype (n : filter_node) : filter_data :=
  match n with
  | .expr _ _ _ => .BOOLEAN
  | .param p => p.type
  | .none_node => .NONE

/-- Modelled from the spec: `is_filter_holder_param` lives in
`filter-param.c`, not among the sources.  Per §4.2 and the glossary, a
holder is a parameter node in holder mode (a column reference); expression
nodes and literal parameters are not holders. -/
def is_filter_holder_param (n : filter_node) : Bool :=
  match n with
  | .param p => p.holder
  | _ => false

/-- Embeds `guess_expr_datatype` (filter-expr.c lines 141–167) applied to
the two children of a comparison expression: equal datatypes win outright;
otherwise a lone holder loses to the non-holder's type; any remaining tie
defaults to the left child's type. -/
def guess_expr_datatype (left right : filter_node) : filter_data :=
  let l := node_get_datatype left
  let r := node_get_datatype right
  if l = r then l
  else
    let l_holder := is_filter_holder_param left
    let r_holder := is_filter_holder_param right
    if l_holder && !r_holder then r
    else if r_holder && !l_holder then l
    else l

/-- Modelled from the spec (§7): the error taxonomy.  `EINVAL` is
InvalidOperand and `ENOMEM` is OutOfMemory, mirroring the negative errno
returns of filter-expr.c; the remaining constructors are the cast, compare
and missing-column failures raised by the collaborators. -/
inductive FErr
  | ENOMEM
  | EINVAL
  | castFail
  | compareFail
  | missingColumn
deriving DecidableEq, Repr

/-- The reference-count heap threaded through evaluation: `fresh` is the
next unused node id (every node allocated before the call has an id below
it), and `rc` gives each id's reference count.  Counts are integers so that
a double release is observable rather than truncated at zero. -/
structure St where
  fresh : Nat
  rc : Nat → Int

/-- Modelled from the spec (§4.1): `filter_unref_node` lives in `filter.c`,
not among the sources.  Releasing an absent (NULL) reference is a no-op;
otherwise the node's count is decremented (the temporaries the evaluator
releases are parameter leaves, so no recursive child release arises). -/
def filter_unref_node (x : Option Nat) (s : St) : St :=
  match x with
  | none => s
  | some j => { s with rc := fun i => if i = j then s.rc i - 1 else s.rc i }

/-- Modelled from the spec (§4.3–§4.5, §6): the row and the
`filter-param.c` collaborators, which are not among the sources, with the
current row baked in.  `evalParam` is `filter_eval_param` (resolve a
parameter to a boolean), `castParam` is the value-conversion core of
`filter_cast_param` (resolve holders against the row, convert to the
target type, fail rather than substitute a default), `compareParams` is
`filter_compare_params`, and `allocOK` says whether allocating a temporary
parameter node succeeds (§7 OutOfMemory). -/
structure Env where
  evalParam : filter_param → Except FErr Bool
  castParam : filter_data → filter_param → Except FErr filter_param
  compareParams : filter_etype → filter_param → filter_param → Except FErr Bool
  allocOK : Bool

/-- Modelled from the spec (§6): `filter_new_param` (filter-param.c, not
among the sources) allocates a fresh literal parameter node with reference
count 1, or fails (NULL) when allocation fails. -/
def filter_new_param (env : Env) (_p : filter_param) (s : St) :
    Option (Nat × St) :=
  if env.allocOK then
    some (s.fresh,
          { fresh := s.fresh + 1,
            rc := fun i => if i = s.fresh then 1 else s.rc i })
  else none

/-- Modelled from the spec (§4.4): `filter_cast_param` (filter-param.c, not
among the sources) converts a parameter's current value — resolving holders
against the row — to the target type and returns a new parameter node owned
by the caller (reference count 1); on failure no result is produced. -/
def filter_cast_param (env : Env) (ty : filter_data) (p : filter_param)
    (s : St) : Except FErr (Nat × filter_param) × St :=
  match env.castParam ty p with
  | .ok pv =>
      (.ok (s.fresh, pv),
       { fresh := s.fresh + 1,
         rc := fun i => if i = s.fresh then 1 else s.rc i })
  | .error e => (.error e, s)

/-- The temporary literal Boolean parameter `cast_node` wraps an evaluated
expression result in (filter-expr.c lines 113–114). -/
def bool_param (b : Bool) : filter_param :=
  { type := .BOOLEAN, holder := false, val := .vbool b }

/-- Combines the two operand evaluations of an AND expression
(filter-expr.c lines 179–183): `lres` is the finished left evaluation and
`k` continues with the right operand.  A false or failed left result is
returned as is, without running `k`. -/
def and_combine (lres : Except FErr Bool × St) (k : St → Except FErr Bool × St) :
    Except FErr Bool × St :=
  match lres with
  | (.ok true, s1) => k s1
  | (.ok false, s1) => (.ok false, s1)
  | (.error e, s1) => (.error e, s1)

/-- Combines the two operand evaluations of an OR expression
(filter-expr.c lines 184–188): a true or failed left result is returned
as is, without running the right-operand continuation `k`. -/
def or_combine (lres : Except FErr Bool × St) (k : St → Except FErr Bool × St) :
    Except FErr Bool × St :=
  match lres with
  | (.ok false, s1) => k s1
  | (.ok true, s1) => (.ok true, s1)
  | (.error e, s1) => (.error e, s1)

/-- Combines the operand evaluation of a NOT expression (filter-expr.c
lines 189–193): a successful result is negated, a failure is returned
unchanged. -/
def neg_combine (rres : Except FErr Bool × St) : Except FErr Bool × St :=
  match rres with
  | (.ok b, s1) => (.ok (!b), s1)
  | (.error e, s1) => (.error e, s1)

/-- Combines the two casts and the comparison of the compare path
(filter-expr.c lines 200–209): `lres` is the finished left cast and `k`
continues with the right cast.  The right cast runs only if the left cast
succeeded, the comparison only if both casts succeeded, and the left and
right temporaries — absent (NULL) when their cast never produced one — are
released before returning, whatever the outcome. -/
def cmp_combine (env : Env) (oper : filter_etype)
    (lres : Except FErr (Nat × filter_param) × St)
    (k : St → Except FErr (Nat × filter_param) × St) :
    Except FErr Bool × St :=
  match lres with
  | (.error e, s1) =>
      (.error e, filter_unref_node none (filter_unref_node none s1))
  | (.ok (lid, lp), s1) =>
    match k s1 with
    | (.error e, s2) =>
        (.error e, filter_unref_node none (filter_unref_node (some lid) s2))
    | (.ok (rid, rp), s2) =>
        (env.compareParams oper lp rp,
         filter_unref_node (some rid) (filter_unref_node (some lid) s2))

/-- Combines an expression evaluation with the boolean-wrapping cast of
`cast_node` (filter-expr.c lines 108–119): a failed evaluation is returned
before any temporary exists; otherwise the boolean result is wrapped as a
temporary literal Boolean parameter (failing with OutOfMemory when the
allocation fails), the temporary is cast to the target type, and the
temporary is released before returning, whatever the cast outcome. -/
def wrap_combine (env : Env) (ty : filter_data) (eres : Except FErr Bool × St) :
    Except FErr (Nat × filter_param) × St :=
  match eres with
  | (.error e, s1) => (.error e, s1)
  | (.ok b, s1) =>
    match filter_new_param env (bool_param b) s1 with
    | none => (.error .ENOMEM, s1)
    | some (prId, s2) =>
      match filter_cast_param env ty (bool_param b) s2 with
      | (res, s3) => (res, filter_unref_node (some prId) s3)

mutual

/-- Modelled from the spec (§4.3): `filter_eval_node` lives in `filter.c`,
not among the sources.  It dispatches on the node kind: parameter nodes are
resolved to a boolean via the row oracle, expression nodes go to
`filter_eval_expr` (the source under verification), and an unexpected kind
is InvalidOperand. -/
def filter_eval_node (env : Env) (n : filter_node) (s : St) :
    Except FErr Bool × St :=
  match n with
  | .param p => (env.evalParam p, s)
  | .expr t l r => filter_eval_expr env t l r s
  | .none_node => (.error .EINVAL, s)
termination_by (sizeOf n, 0)

/-- Embeds `filter_eval_expr` (filter-expr.c lines 169–210) on an
expression node's fields.  AND and OR short-circuit on the left result,
NEG negates the right result, and every other operator takes the
compare path. -/
def filter_eval_expr (env : Env) (oper : filter_etype)
    (left right : Option filter_node) (s : St) : Except FErr Bool × St :=
  match oper with
  | .AND =>
    match left, right with
    | some la, some ra =>
        and_combine (filter_eval_node env la s)
          (fun s1 => filter_eval_node env ra s1)
    | _, _ => (.error .EINVAL, s)
  | .OR =>
    match left, right with
    | some lb, some rb =>
        or_combine (filter_eval_node env lb s)
          (fun s1 => filter_eval_node env rb s1)
    | _, _ => (.error .EINVAL, s)
  | .NEG =>
    match right with
    | none => (.error .EINVAL, s)
    | some rn => neg_combine (filter_eval_node env rn s)
  | _ => eval_cmp env oper left right s
termination_by (sizeOf left + sizeOf right, 1)

/-- Embeds the compare path of `filter_eval_expr` (filter-expr.c lines
198–209): guess the comparison datatype, cast the left child, then — only
on success — the right child, then — only on success — compare; finally
release the left and right temporaries (absent ones are NULL, a no-op)
whatever the outcome. -/
def eval_cmp (env : Env) (oper : filter_etype)
    (left right : Option filter_node) (s : St) : Except FErr Bool × St :=
  match left, right with
  | some ll, some rr =>
      cmp_combine env oper
        (cast_node env (guess_expr_datatype ll rr) ll s)
        (fun s1 => cast_node env (guess_expr_datatype ll rr) rr s1)
  | _, _ => (.error .EINVAL, s)
termination_by (sizeOf left + sizeOf right, 0)

/-- Embeds `cast_node` (filter-expr.c lines 97–128): an expression child is
evaluated, its boolean result wrapped as a temporary literal Boolean
parameter, the temporary cast to the target type and then released whatever
the cast outcome; a parameter child is cast directly; any other node kind
is InvalidOperand. -/
def cast_node (env : Env) (ty : filter_data) (n : filter_node) (s : St) :
    Except FErr (Nat × filter_param) × St :=
  match n with
  | .expr t l r => wrap_combine env ty (filter_eval_expr env t l r s)
  | .param p => filter_cast_param env ty p s
  | .none_node => (.error .EINVAL, s)
termination_by (sizeOf n, 1)

end

/-- Tokens emitted by the diagnostic dump, modelling the `ul_jsonwrt`
writer calls (object open with a name, a string key/value pair, object
close). -/
inductive DTok
  | objOpen (name : String)
  | valS (key val : String)
  | objClose
deriving DecidableEq, Repr

/-- Embeds `expr_type_as_string` (filter-expr.c lines 55–82). -/
def expr_type_as_string (t : filter_etype) : String :=
  match t with
  | .AND => "AND"
  | .OR => "OR"
  | .EQ => "EQ"
  | .NE => "NE"
  | .LE => "LE"
  | .LT => "LT"
  | .GE => "GE"
  | .GT => "GT"
  | .REG => "REG"
  | .NREG => "NREG"
  | .NEG => "NOT"

/-- Modelled from the spec (§3): the type tag names a parameter dump
emits; the parameter dump itself lives in `filter-param.c`, not among the
sources. -/
def data_type_as_string (d : filter_data) : String :=
  match d with
  | .NONE => "none"
  | .BOOLEAN => "boolean"
  | .STRING => "string"
  | .INTEGER => "integer"
  | .FLOAT => "float"

/-- Combines the header of a dumped expression object with the dumps of
one present child: append the child's tokens and close the object. -/
def dump1_combine (hd : List DTok) (d : List DTok × St) : List DTok × St :=
  (hd ++ d.1 ++ [DTok.objClose], d.2)

/-- Combines the header of a dumped expression object with the dumps of
both present children: append both children's tokens in order and close
the object. -/
def dump2_combine (hd : List DTok) (d : List DTok × St)
    (k : St → List DTok × St) : List DTok × St :=
  match d with
  | (dl, s1) =>
    match k s1 with
    | (dr, s2) => (hd ++ dl ++ dr ++ [DTok.objClose], s2)

mutual

/-- Modelled from the spec (§4.6, §6): `filter_dump_node` lives in
`filter.c`, not among the sources.  It dispatches on the node kind:
expression nodes go to `filter_dump_expr` (the source under verification),
parameter nodes emit a type-tagged "param" object, an unexpected kind
emits nothing.  The reference-count heap is threaded through to make the
dump's frame effect on it statable. -/
def filter_dump_node (n : filter_node) (s : St) : List DTok × St :=
  match n with
  | .expr t l r => filter_dump_expr t l r s
  | .param p =>
      ([.objOpen "param", .valS "type" (data_type_as_string p.type),
        .objClose], s)
  | .none_node => ([], s)
termination_by (sizeOf n, 0)

/-- Embeds `filter_dump_expr` (filter-expr.c lines 84–95): open an "expr"
object, emit the operator name, recurse into whichever children are
present, close the object. -/
def filter_dump_expr (etype : filter_etype) (left right : Option filter_node)
    (s : St) : List DTok × St :=
  match left, right with
  | some lc, some rcn =>
      dump2_combine
        [DTok.objOpen "expr", DTok.valS "type" (expr_type_as_string etype)]
        (filter_dump_node lc s) (fun s1 => filter_dump_node rcn s1)
  | some lc, none =>
      dump1_combine
        [DTok.objOpen "expr", DTok.valS "type" (expr_type_as_string etype)]
        (filter_dump_node lc s)
  | none, some rcn =>
      dump1_combine
        [DTok.objOpen "expr", DTok.valS "type" (expr_type_as_string etype)]
        (filter_dump_node rcn s)
  | none, none =>
      ([DTok.objOpen "expr", DTok.valS "type" (expr_type_as_string etype),
        DTok.objClose], s)
termination_by (sizeOf left + sizeOf right, 1)

end

/-- Statement helper: the operators that take the compare path of
`filter_eval_expr` — everything except AND, OR and NOT. -/
def is_cmp_oper (t : filter_etype) : Bool :=
  match t with
  | .AND | .OR | .NEG => false
  | _ => true

/-- Statement helper: the evaluator stepped the heap from `s` to `s1`
cleanly — the fresh counter only grew, every id allocated during the step
has been released again (count 0), and every pre-existing id keeps its
count. -/
def rc_clean (s s1 : St) : Prop :=
  s.fresh ≤ s1.fresh ∧
  ∀ i, s1.rc i = if s.fresh ≤ i ∧ i < s1.fresh then 0 else s.rc i

/-- Statement helper: a cast stepped the heap from `s` to `s1` producing
the temporary `rid` — `rid` is newly allocated and holds count 1 (owned by
the caller), every other id allocated during the step has been released
again, and every pre-existing id keeps its count. -/
def rc_cast (s s1 : St) (rid : Nat) : Prop :=
  s.fresh ≤ s1.fresh ∧ s.fresh ≤ rid ∧ rid < s1.fresh ∧
  ∀ i, s1.rc i =
    if i = rid then 1
    else if s.fresh ≤ i ∧ i < s1.fresh then 0 else s.rc i

/-- Concrete row oracle for closed evaluation runs: a parameter resolves to
a boolean only when it carries a boolean literal, anything else fails the
boolean cast. -/
def rowEval (p : filter_param) : Except FErr Bool :=
  match p.val with
  | .vbool b => .ok b
  | _ => .error .castFail

/-- Concrete cast oracle for closed evaluation runs: a cast to the
parameter's own stored type succeeds unchanged, any conversion fails. -/
def rowCast (ty : filter_data) (p : filter_param) : Except FErr filter_param :=
  if p.type = ty then .ok p else .error .castFail

/-- Concrete comparison oracle for closed evaluation runs: EQ compares the
stored values, every other operator fails. -/
def rowCmp (t : filter_etype) (a b : filter_param) : Except FErr Bool :=
  match t with
  | .EQ => .ok (decide (a.val = b.val))
  | _ => .error .compareFail

/-- Concrete environment with the oracles above and working allocation. -/
def envW : Env :=
  { evalParam := rowEval, castParam := rowCast,
    compareParams := rowCmp, allocOK := true }

/-- The same environment with failing allocation, for the OutOfMemory
path. -/
def envW_noalloc : Env :=
  { evalParam := rowEval, castParam := rowCast,
    compareParams := rowCmp, allocOK := false }

/-- A literal Boolean parameter holding true. -/
def pTrue : filter_param := bool_param true

/-- A literal Boolean parameter holding false. -/
def pFalse : filter_param := bool_param false

/-- A typeless literal parameter whose boolean evaluation fails. -/
def pBad : filter_param := { type := .NONE, holder := false, val := .vnone }

/-- A holder parameter of native type Integer (a column reference). -/
def pHoldInt : filter_param := { type := .INTEGER, holder := true, val := .vnone }

/-- A literal parameter of type Float (like the literal 5.5). -/
def pFloat : filter_param := { type := .FLOAT, holder := false, val := .vnone }

/-- An empty starting heap: no node allocated yet. -/
def st0 : St := { fresh := 0, rc := fun _ => 0 }

/-- A heap with one pre-existing node, id 0, holding count 5. -/
def stW : St := { fresh := 1, rc := fun _ => 5 }

theorem rc_clean_refl (s : St) : rc_clean s s := by
  refine ⟨le_refl _, fun i => ?_⟩
  split_ifs with h
  · omega
  · rfl

theorem rc_clean_trans {s s1 s2 : St} (h1 : rc_clean s s1)
    (h2 : rc_clean s1 s2) : rc_clean s s2 := by
  obtain ⟨hf1, hr1⟩ := h1
  obtain ⟨hf2, hr2⟩ := h2
  refine ⟨le_trans hf1 hf2, fun i => ?_⟩
  rw [hr2 i, hr1 i]
  split_ifs <;> omega

theorem rc_cast_clean_unref {s s1 s2 : St} {lid : Nat}
    (h1 : rc_cast s s1 lid) (h2 : rc_clean s1 s2) :
    rc_clean s (filter_unref_node (some lid) s2) := by
  obtain ⟨hf1, ha1, hb1, hr1⟩ := h1
  obtain ⟨hf2, hr2⟩ := h2
  constructor
  · simp only [filter_unref_node]
    exact le_trans hf1 hf2
  · intro i
    simp only [filter_unref_node]
    by_cases hL : i = lid
    · subst hL
      have e3 := hr2 i
      have e4 := hr1 i
      simp only [if_pos rfl] at e4
      rw [if_neg (by omega : ¬ (s1.fresh ≤ i ∧ i < s2.fresh))] at e3
      simp only [if_pos rfl]
      rw [e3, e4]
      split_ifs <;> omega
    · have e2 := hr2 i
      have e1 := hr1 i
      rw [if_neg hL] at e1
      rw [if_neg hL, e2, e1]
      split_ifs <;> omega

theorem rc_cast_cast_unref {s s1 s2 : St} {lid rid : Nat}
    (h1 : rc_cast s s1 lid) (h2 : rc_cast s1 s2 rid) :
    rc_clean s (filter_unref_node (some rid) (filter_unref_node (some lid) s2)) := by
  obtain ⟨hf1, ha1, hb1, hr1⟩ := h1
  obtain ⟨hf2, ha2, hb2, hr2⟩ := h2
  constructor
  · simp only [filter_unref_node]
    exact le_trans hf1 hf2
  · intro i
    simp only [filter_unref_node]
    by_cases hR : i = rid
    · subst hR
      have e5 := hr2 i
      simp only [if_pos rfl] at e5
      rw [if_neg (by omega : ¬ i = lid), if_pos rfl, e5]
      split_ifs <;> omega
    · by_cases hL : i = lid
      · subst hL
        have e3 := hr2 i
        have e4 := hr1 i
        simp only [if_pos rfl] at e4
        rw [if_neg hR, if_neg (by omega : ¬ (s1.fresh ≤ i ∧ i < s2.fresh))] at e3
        rw [if_neg hR, if_pos rfl, e3, e4]
        split_ifs <;> omega
      · have e2 := hr2 i
        have e1 := hr1 i
        rw [if_neg hR] at e2
        rw [if_neg hL] at e1
        rw [if_neg hR, if_neg hL, e2, e1]
        split_ifs <;> omega

theorem wrap_err_rc {s s1 : St} (h : rc_clean s s1) :
    rc_clean s (filter_unref_node (some s1.fresh)
      { fresh := s1.fresh + 1,
        rc := fun i => if i = s1.fresh then 1 else s1.rc i }) := by
  obtain ⟨hf, hr⟩ := h
  constructor
  · show s.fresh ≤ s1.fresh + 1
    omega
  · intro i
    have e := hr i
    simp only [filter_unref_node]
    split_ifs at e ⊢ <;> omega

theorem wrap_ok_rc {s s1 : St} (h : rc_clean s s1) :
    rc_cast s
      (filter_unref_node (some s1.fresh)
        { fresh := s1.fresh + 1 + 1,
          rc := fun i => if i = s1.fresh + 1 then 1
                else if i = s1.fresh then 1 else s1.rc i })
      (s1.fresh + 1) := by
  obtain ⟨hf, hr⟩ := h
  refine ⟨?_, ?_, ?_, fun i => ?_⟩
  · show s.fresh ≤ s1.fresh + 1 + 1
    omega
  · omega
  · show s1.fresh + 1 < s1.fresh + 1 + 1
    omega
  · have e := hr i
    simp only [filter_unref_node]
    split_ifs at e ⊢ <;> omega

theorem param_cast_rc (s : St) :
    rc_cast s
      { fresh := s.fresh + 1,
        rc := fun i => if i = s.fresh then 1 else s.rc i }
      s.fresh := by
  refine ⟨?_, le_refl _, ?_, fun i => ?_⟩
  · show s.fresh ≤ s.fresh + 1
    omega
  · show s.fresh < s.fresh + 1
    omega
  · dsimp only
    split_ifs <;> omega

theorem rc_master : ∀ k : Nat,
    (∀ (env : Env) (n : filter_node), sizeOf n ≤ k →
       ∀ s, rc_clean s (filter_eval_node env n s).2) ∧
    (∀ (env : Env) (t : filter_etype) (l r : Option filter_node),
       sizeOf l + sizeOf r ≤ k →
       ∀ s, rc_clean s (filter_eval_expr env t l r s).2) ∧
    (∀ (env : Env) (t : filter_etype) (l r : Option filter_node),
       sizeOf l + sizeOf r ≤ k →
       ∀ s, rc_clean s (eval_cmp env t l r s).2) ∧
    (∀ (env : Env) (ty : filter_data) (n : filter_node), sizeOf n ≤ k → ∀ s,
       (∀ rid p s1, cast_node env ty n s = (.ok (rid, p), s1) → rc_cast s s1 rid) ∧
       (∀ e s1, cast_node env ty n s = (.error e, s1) → rc_clean s s1)) := by
  intro k
  induction k using Nat.strong_induction_on with
  | _ k IH =>
  have hcast : ∀ (env : Env) (ty : filter_data) (n : filter_node),
      sizeOf n ≤ k → ∀ s,
      (∀ rid p s1, cast_node env ty n s = (.ok (rid, p), s1) → rc_cast s s1 rid) ∧
      (∀ e s1, cast_node env ty n s = (.error e, s1) → rc_clean s s1) := by
    intro env ty n hn s
    cases n with
    | none_node =>
      constructor
      · intro rid p s1 h
        simp only [cast_node] at h
        simp at h
      · intro e s1 h
        simp only [cast_node] at h
        rw [Prod.mk.injEq] at h
        obtain ⟨-, hs⟩ := h
        subst hs
        exact rc_clean_refl s
    | param p =>
      cases hc : env.castParam ty p with
      | ok pv2 =>
        constructor
        · intro rid pv s1 h
          simp only [cast_node, filter_cast_param, hc] at h
          simp only [Prod.mk.injEq, Except.ok.injEq] at h
          obtain ⟨⟨hrid, hpv⟩, hs⟩ := h
          subst hrid
          subst hs
          exact param_cast_rc s
        · intro e s1 h
          simp only [cast_node, filter_cast_param, hc] at h
          simp at h
      | error e2 =>
        constructor
        · intro rid pv s1 h
          simp only [cast_node, filter_cast_param, hc] at h
          simp at h
        · intro e s1 h
          simp only [cast_node, filter_cast_param, hc] at h
          rw [Prod.mk.injEq] at h
          obtain ⟨-, hs⟩ := h
          subst hs
          exact rc_clean_refl s
    | expr t l r =>
      have hm : sizeOf l + sizeOf r < k := by
        have hsz := filter_node.expr.sizeOf_spec t l r
        omega
      have hexprm := (IH (sizeOf l + sizeOf r) hm).2.1 env t l r (le_refl _)
      rcases he : filter_eval_expr env t l r s with ⟨res, s1⟩
      have hcl : rc_clean s s1 := by
        have hh := hexprm s
        rw [he] at hh
        exact hh
      cases res with
      | error e0 =>
        constructor
        · intro rid pv s1a h
          simp only [cast_node, wrap_combine, he] at h
          simp at h
        · intro e s1a h
          simp only [cast_node, wrap_combine, he] at h
          rw [Prod.mk.injEq] at h
          obtain ⟨he2, hs⟩ := h
          subst hs
          exact hcl
      | ok b =>
        cases henv : env.allocOK with
        | false =>
          constructor
          · intro rid pv s1a h
            simp only [cast_node, wrap_combine, he, filter_new_param, henv,
                       if_false] at h
            simp at h
          · intro e s1a h
            simp only [cast_node, wrap_combine, he, filter_new_param, henv,
                       if_false] at h
            rw [Prod.mk.injEq] at h
            obtain ⟨-, hs⟩ := h
            subst hs
            exact hcl
        | true =>
          cases hc : env.castParam ty (bool_param b) with
          | ok pv2 =>
            constructor
            · intro rid pv s1a h
              simp only [cast_node, wrap_combine, he, filter_new_param, henv,
                         if_true, filter_cast_param, hc] at h
              simp only [Prod.mk.injEq, Except.ok.injEq] at h
              obtain ⟨⟨hrid, hpv⟩, hs⟩ := h
              subst hrid
              subst hs
              exact wrap_ok_rc hcl
            · intro e s1a h
              simp only [cast_node, wrap_combine, he, filter_new_param, henv,
                         if_true, filter_cast_param, hc] at h
              simp at h
          | error e2 =>
            constructor
            · intro rid pv s1a h
              simp only [cast_node, wrap_combine, he, filter_new_param, henv,
                         if_true, filter_cast_param, hc] at h
              simp at h
            · intro e s1a h
              simp only [cast_node, wrap_combine, he, filter_new_param, henv,
                         if_true, filter_cast_param, hc] at h
              rw [Prod.mk.injEq] at h
              obtain ⟨-, hs⟩ := h
              subst hs
              exact wrap_err_rc hcl
  have hcmp : ∀ (env : Env) (t : filter_etype) (l r : Option filter_node),
      sizeOf l + sizeOf r ≤ k →
      ∀ s, rc_clean s (eval_cmp env t l r s).2 := by
    intro env t l r hle s
    cases l with
    | none =>
      cases r with
      | none =>
        simp only [eval_cmp]
        exact rc_clean_refl s
      | some rr =>
        simp only [eval_cmp]
        exact rc_clean_refl s
    | some ll =>
      cases r with
      | none =>
        simp only [eval_cmp]
        exact rc_clean_refl s
      | some rr =>
        have hll : sizeOf ll < k := by
          simp at hle
          omega
        have hrr : sizeOf rr < k := by
          simp at hle
          omega
        have hc1 := (IH (sizeOf ll) hll).2.2.2 env
          (guess_expr_datatype ll rr) ll (le_refl _) s
        rcases hcl : cast_node env (guess_expr_datatype ll rr) ll s
          with ⟨res1, s1⟩
        cases res1 with
        | error e =>
          simp only [eval_cmp, hcl, cmp_combine]
          exact hc1.2 e s1 hcl
        | ok lpr =>
          obtain ⟨lid, lp⟩ := lpr
          have hlid : rc_cast s s1 lid := hc1.1 lid lp s1 hcl
          have hc2 := (IH (sizeOf rr) hrr).2.2.2 env
            (guess_expr_datatype ll rr) rr (le_refl _) s1
          rcases hcr : cast_node env (guess_expr_datatype ll rr) rr s1
            with ⟨res2, s2⟩
          cases res2 with
          | error e =>
            simp only [eval_cmp, hcl, cmp_combine, hcr]
            exact rc_cast_clean_unref hlid (hc2.2 e s2 hcr)
          | ok rpr =>
            obtain ⟨rid, rp⟩ := rpr
            simp only [eval_cmp, hcl, cmp_combine, hcr]
            exact rc_cast_cast_unref hlid (hc2.1 rid rp s2 hcr)
  have hnode : ∀ (env : Env) (n : filter_node), sizeOf n ≤ k →
      ∀ s, rc_clean s (filter_eval_node env n s).2 := by
    intro env n hn s
    cases n with
    | param p =>
      simp only [filter_eval_node]
      exact rc_clean_refl s
    | none_node =>
      simp only [filter_eval_node]
      exact rc_clean_refl s
    | expr t l r =>
      have hm : sizeOf l + sizeOf r < k := by
        have hsz := filter_node.expr.sizeOf_spec t l r
        omega
      simp only [filter_eval_node]
      exact (IH (sizeOf l + sizeOf r) hm).2.1 env t l r (le_refl _) s
  have hexpr : ∀ (env : Env) (t : filter_etype) (l r : Option filter_node),
      sizeOf l + sizeOf r ≤ k →
      ∀ s, rc_clean s (filter_eval_expr env t l r s).2 := by
    intro env t l r hle s
    cases t
    case AND =>
      cases l with
      | none =>
        cases r with
        | none =>
          simp only [filter_eval_expr]
          exact rc_clean_refl s
        | some ra =>
          simp only [filter_eval_expr]
          exact rc_clean_refl s
      | some la =>
        cases r with
        | none =>
          simp only [filter_eval_expr]
          exact rc_clean_refl s
        | some ra =>
          have hla : sizeOf la ≤ k := by
            simp at hle
            omega
          have hra : sizeOf ra ≤ k := by
            simp at hle
            omega
          rcases h1 : filter_eval_node env la s with ⟨res1, s1⟩
          have hcl1 : rc_clean s s1 := by
            have hh := hnode env la hla s
            rw [h1] at hh
            exact hh
          cases res1 with
          | error e =>
            simp only [filter_eval_expr, h1, and_combine]
            exact hcl1
          | ok b =>
            cases b with
            | false =>
              simp only [filter_eval_expr, h1, and_combine]
              exact hcl1
            | true =>
              rcases h2 : filter_eval_node env ra s1 with ⟨res2, s2⟩
              have hcl2 : rc_clean s1 s2 := by
                have hh := hnode env ra hra s1
                rw [h2] at hh
                exact hh
              simp only [filter_eval_expr, h1, and_combine, h2]
              exact rc_clean_trans hcl1 hcl2
    case OR =>
      cases l with
      | none =>
        cases r with
        | none =>
          simp only [filter_eval_expr]
          exact rc_clean_refl s
        | some rb =>
          simp only [filter_eval_expr]
          exact rc_clean_refl s
      | some lb =>
        cases r with
        | none =>
          simp only [filter_eval_expr]
          exact rc_clean_refl s
        | some rb =>
          have hlb : sizeOf lb ≤ k := by
            simp at hle
            omega
          have hrb : sizeOf rb ≤ k := by
            simp at hle
            omega
          rcases h1 : filter_eval_node env lb s with ⟨res1, s1⟩
          have hcl1 : rc_clean s s1 := by
            have hh := hnode env lb hlb s
            rw [h1] at hh
            exact hh
          cases res1 with
          | error e =>
            simp only [filter_eval_expr, h1, or_combine]
            exact hcl1
          | ok b =>
            cases b with
            | true =>
              simp only [filter_eval_expr, h1, or_combine]
              exact hcl1
            | false =>
              rcases h2 : filter_eval_node env rb s1 with ⟨res2, s2⟩
              have hcl2 : rc_clean s1 s2 := by
                have hh := hnode env rb hrb s1
                rw [h2] at hh
                exact hh
              simp only [filter_eval_expr, h1, or_combine, h2]
              exact rc_clean_trans hcl1 hcl2
    case NEG =>
      cases r with
      | none =>
        simp only [filter_eval_expr]
        exact rc_clean_refl s
      | some rn =>
        have hrn : sizeOf rn ≤ k := by
          simp at hle
          omega
        rcases h1 : filter_eval_node env rn s with ⟨res1, s1⟩
        have hcl1 : rc_clean s s1 := by
          have hh := hnode env rn hrn s
          rw [h1] at hh
          exact hh
        cases res1 with
        | error e =>
          simp only [filter_eval_expr, h1, neg_combine]
          exact hcl1
        | ok b =>
          simp only [filter_eval_expr, h1, neg_combine]
          exact hcl1
    all_goals
      simp only [filter_eval_expr]
    all_goals
      exact hcmp env _ l r hle s
  exact ⟨hnode, hexpr, hcmp, hcast⟩

theorem eval_expr_rc (env : Env) (t : filter_etype) (l r : Option filter_node)
    (s : St) : rc_clean s (filter_eval_expr env t l r s).2 :=
  (rc_master (sizeOf l + sizeOf r)).2.1 env t l r (le_refl _) s

theorem eval_expr_cmp_eq (env : Env) (t : filter_etype)
    (l r : Option filter_node) (s : St) (ht : is_cmp_oper t = true) :
    filter_eval_expr env t l r s = eval_cmp env t l r s := by
  cases t
  case AND => simp [is_cmp_oper] at ht
  case OR => simp [is_cmp_oper] at ht
  case NEG => simp [is_cmp_oper] at ht
  all_goals simp only [filter_eval_expr]

theorem dump_master : ∀ k : Nat,
    (∀ n : filter_node, sizeOf n ≤ k →
       ∀ s, (filter_dump_node n s).2 = s) ∧
    (∀ (t : filter_etype) (l r : Option filter_node),
       sizeOf l + sizeOf r ≤ k →
       ∀ s, (filter_dump_expr t l r s).2 = s) := by
  intro k
  induction k using Nat.strong_induction_on with
  | _ k IH =>
  have hnode : ∀ n : filter_node, sizeOf n ≤ k →
      ∀ s, (filter_dump_node n s).2 = s := by
    intro n hn s
    cases n with
    | param p => simp only [filter_dump_node]
    | none_node => simp only [filter_dump_node]
    | expr t l r =>
      have hm : sizeOf l + sizeOf r < k := by
        have hsz := filter_node.expr.sizeOf_spec t l r
        omega
      simp only [filter_dump_node]
      exact (IH (sizeOf l + sizeOf r) hm).2 t l r (le_refl _) s
  have hexpr : ∀ (t : filter_etype) (l r : Option filter_node),
      sizeOf l + sizeOf r ≤ k →
      ∀ s, (filter_dump_expr t l r s).2 = s := by
    intro t l r hle s
    cases l with
    | none =>
      cases r with
      | none => simp only [filter_dump_expr]
      | some rcn =>
        have hrc : sizeOf rcn ≤ k := by
          simp at hle
          omega
        simp only [filter_dump_expr, dump1_combine]
        exact hnode rcn hrc s
    | some lc =>
      have hlc : sizeOf lc ≤ k := by
        simp at hle
        omega
      cases r with
      | none =>
        simp only [filter_dump_expr, dump1_combine]
        exact hnode lc hlc s
      | some rcn =>
        have hrc : sizeOf rcn ≤ k := by
          simp at hle
          omega
        rcases h1 : filter_dump_node lc s with ⟨dl, s1⟩
        have hs1 : s1 = s := by
          have hh := hnode lc hlc s
          rw [h1] at hh
          exact hh
        rcases h2 : filter_dump_node rcn s1 with ⟨dr, s2⟩
        have hs2 : s2 = s1 := by
          have hh := hnode rcn (by omega) s1
          rw [h2] at hh
          exact hh
        simp only [filter_dump_expr, dump2_combine, h1, h2]
        rw [hs2, hs1]
  exact ⟨hnode, hexpr⟩

theorem dump_node_st (n : filter_node) (s : St) :
    (filter_dump_node n s).2 = s :=
  (dump_master (sizeOf n)).1 n (le_refl _) s

/-- C1: among the two children of a relational/equality/pattern expression
an Expression child counts as Boolean and a Parameter child as its stored
type; when both children report the same type, that type is the resolved
comparison type; when the types differ and exactly one child is a holder,
the non-holder child's type is resolved; when both or neither are holders,
the left child's type is the default. -/
theorem C1_guess_datatype (l r : filter_node) :
    (∀ (t : filter_etype) (lo ro : Option filter_node),
       node_get_datatype (.expr t lo ro) = .BOOLEAN) ∧
    (∀ p : filter_param, node_get_datatype (.param p) = p.type) ∧
    (node_get_datatype l = node_get_datatype r →
       guess_expr_datatype l r = node_get_datatype l) ∧
    (node_get_datatype l ≠ node_get_datatype r →
      (is_filter_holder_param l = true → is_filter_holder_param r = false →
         guess_expr_datatype l r = node_get_datatype r) ∧
      (is_filter_holder_param r = true → is_filter_holder_param l = false →
         guess_expr_datatype l r = node_get_datatype l) ∧
      (is_filter_holder_param l = is_filter_holder_param r →
         guess_expr_datatype l r = node_get_datatype l)) := by
  refine ⟨fun t lo ro => rfl, fun p => rfl, ?_, ?_⟩
  · intro hEq
    simp [guess_expr_datatype, hEq]
  · intro hNe
    refine ⟨?_, ?_, ?_⟩
    · intro h1 h2
      simp [guess_expr_datatype, hNe, h1, h2]
    · intro h1 h2
      simp [guess_expr_datatype, hNe, h1, h2]
    · intro h12
      cases hb : is_filter_holder_param l with
      | false =>
        rw [hb] at h12
        simp [guess_expr_datatype, hNe, hb, h12.symm]
      | true =>
        rw [hb] at h12
        simp [guess_expr_datatype, hNe, hb, h12.symm]

theorem C1_guess_datatype_witness :
    guess_expr_datatype (.param pHoldInt) (.param pFloat) =
      node_get_datatype (.param pFloat) ∧
    guess_expr_datatype (.param pFloat) (.param pHoldInt) =
      node_get_datatype (.param pFloat) ∧
    guess_expr_datatype (.param pHoldInt) (.param pHoldInt) =
      node_get_datatype (.param pHoldInt) :=
  ⟨((C1_guess_datatype (.param pHoldInt) (.param pFloat)).2.2.2
      (by decide)).1 (by decide) (by decide),
   ((C1_guess_datatype (.param pFloat) (.param pHoldInt)).2.2.2
      (by decide)).2.1 (by decide) (by decide),
   (C1_guess_datatype (.param pHoldInt) (.param pHoldInt)).2.2.1 rfl⟩

/-- C2: an AND expression whose left child evaluates to false returns that
false result — state included — without the right child being evaluated,
so even a right child whose evaluation would fail raises no error; an OR
expression whose left child evaluates to true short-circuits likewise; in
the remaining successful cases the result is exactly the evaluation of the
right child. -/
theorem C2_short_circuit (env : Env) (L R : filter_node) (s s1 : St) :
    (filter_eval_node env L s = (.ok false, s1) →
       filter_eval_expr env .AND (some L) (some R) s = (.ok false, s1)) ∧
    (filter_eval_node env L s = (.ok true, s1) →
       filter_eval_expr env .OR (some L) (some R) s = (.ok true, s1)) ∧
    (filter_eval_node env L s = (.ok true, s1) →
       filter_eval_expr env .AND (some L) (some R) s =
         filter_eval_node env R s1) ∧
    (filter_eval_node env L s = (.ok false, s1) →
       filter_eval_expr env .OR (some L) (some R) s =
         filter_eval_node env R s1) := by
  refine ⟨?_, ?_, ?_, ?_⟩ <;> intro h <;>
    simp [filter_eval_expr, h, and_combine, or_combine]

theorem C2_short_circuit_witness :
    filter_eval_expr envW .AND (some (.param pFalse)) (some (.param pBad)) st0
        = (.ok false, st0) ∧
    filter_eval_node envW (.param pBad) st0 = (.error .castFail, st0) :=
  ⟨(C2_short_circuit envW (.param pFalse) (.param pBad) st0 st0).1
      (by simp [filter_eval_node, envW, rowEval, pFalse, bool_param]),
   by simp [filter_eval_node, envW, rowEval, pBad]⟩

/-- C3: a NOT expression over a child whose evaluation succeeds with `b`
succeeds on the same row with the logical negation of `b`; when the child's
evaluation fails, NOT fails with the same error and the status is not
negated. -/
theorem C3_neg (env : Env) (P : filter_node) (s s1 : St) :
    (∀ b, filter_eval_node env P s = (.ok b, s1) →
       filter_eval_expr env .NEG none (some P) s = (.ok (!b), s1)) ∧
    (∀ e, filter_eval_node env P s = (.error e, s1) →
       filter_eval_expr env .NEG none (some P) s = (.error e, s1)) := by
  constructor <;> intro x h <;>
    simp [filter_eval_expr, h, neg_combine]

theorem C3_neg_witness :
    filter_eval_expr envW .NEG none (some (.param pTrue)) st0
      = (.ok false, st0) :=
  (C3_neg envW (.param pTrue) st0 st0).1 true
    (by simp [filter_eval_node, envW, rowEval, pTrue, bool_param])

/-- C7: the build API stores both supplied children for the ten binary
logical/comparison/pattern operators, while a NOT expression node keeps
its left child absent regardless of the left argument supplied by the
caller. -/
theorem C7_new_expr (t : filter_etype) (l r : Option filter_node) :
    filter_new_expr t l r = .expr t (if t = .NEG then none else l) r := by
  cases t <;> rfl

/-- C4: any cast or comparison failure during evaluation is returned to
the caller unchanged: a failed left operand of AND or OR suppresses the
right operand, a failed left cast on the compare path suppresses the right
cast and the comparison, a failed right cast suppresses the comparison,
and a comparison failure is returned as is (only the already-created
temporaries are released); the failure is never replaced by a boolean
match result. -/
theorem C4_error_propagation (env : Env) (e : FErr) :
    (∀ (L R : filter_node) (s s1 : St),
       filter_eval_node env L s = (.error e, s1) →
       filter_eval_expr env .AND (some L) (some R) s = (.error e, s1)) ∧
    (∀ (L R : filter_node) (s s1 : St),
       filter_eval_node env L s = (.error e, s1) →
       filter_eval_expr env .OR (some L) (some R) s = (.error e, s1)) ∧
    (∀ (t : filter_etype) (ll rr : filter_node) (s s1 : St),
       is_cmp_oper t = true →
       cast_node env (guess_expr_datatype ll rr) ll s = (.error e, s1) →
       filter_eval_expr env t (some ll) (some rr) s = (.error e, s1)) ∧
    (∀ (t : filter_etype) (ll rr : filter_node) (s s1 s2 : St)
       (lid : Nat) (lp : filter_param),
       is_cmp_oper t = true →
       cast_node env (guess_expr_datatype ll rr) ll s = (.ok (lid, lp), s1) →
       cast_node env (guess_expr_datatype ll rr) rr s1 = (.error e, s2) →
       filter_eval_expr env t (some ll) (some rr) s =
         (.error e, filter_unref_node (some lid) s2)) ∧
    (∀ (t : filter_etype) (ll rr : filter_node) (s s1 s2 : St)
       (lid rid : Nat) (lp rp : filter_param),
       is_cmp_oper t = true →
       cast_node env (guess_expr_datatype ll rr) ll s = (.ok (lid, lp), s1) →
       cast_node env (guess_expr_datatype ll rr) rr s1 = (.ok (rid, rp), s2) →
       env.compareParams t lp rp = .error e →
       filter_eval_expr env t (some ll) (some rr) s =
         (.error e,
          filter_unref_node (some rid) (filter_unref_node (some lid) s2))) := by
  refine ⟨?_, ?_, ?_, ?_, ?_⟩
  · intro L R s s1 h
    simp [filter_eval_expr, h, and_combine]
  · intro L R s s1 h
    simp [filter_eval_expr, h, or_combine]
  · intro t ll rr s s1 ht hcl
    rw [eval_expr_cmp_eq env t (some ll) (some rr) s ht]
    simp [eval_cmp, hcl, cmp_combine, filter_unref_node]
  · intro t ll rr s s1 s2 lid lp ht hcl hcr
    rw [eval_expr_cmp_eq env t (some ll) (some rr) s ht]
    simp [eval_cmp, hcl, hcr, cmp_combine, filter_unref_node]
  · intro t ll rr s s1 s2 lid rid lp rp ht hcl hcr hcmp
    rw [eval_expr_cmp_eq env t (some ll) (some rr) s ht]
    simp [eval_cmp, hcl, hcr, hcmp, cmp_combine]

theorem C4_error_propagation_witness :
    filter_eval_expr envW .GE (some (.param pHoldInt)) (some (.param pFloat))
        st0 = (.error .castFail, st0) :=
  (C4_error_propagation envW .castFail).2.2.1 .GE (.param pHoldInt)
    (.param pFloat) st0 st0 rfl
    (by simp [cast_node, filter_cast_param, envW, rowCast,
              guess_expr_datatype, node_get_datatype, is_filter_holder_param,
              pHoldInt, pFloat])

/-- C5: casting an Expression node first evaluates it; a failed evaluation
is returned with no temporary created (the heap is exactly the
evaluation's); on success the boolean is wrapped as a fresh temporary
literal Boolean parameter, the cast of that temporary to the target type
is the cast's result — its value on success, its error on failure — and
the temporary (id `s1.fresh`, allocated first) has count zero, released,
in the returned heap in both cases. -/
theorem C5_cast_expr (env : Env) (ty : filter_data) (t : filter_etype)
    (l r : Option filter_node) (s s1 : St) :
    (∀ e, filter_eval_expr env t l r s = (.error e, s1) →
       cast_node env ty (.expr t l r) s = (.error e, s1)) ∧
    (∀ b, filter_eval_expr env t l r s = (.ok b, s1) → env.allocOK = true →
       (∀ pv, env.castParam ty (bool_param b) = .ok pv →
          (cast_node env ty (.expr t l r) s).1 = .ok (s1.fresh + 1, pv)) ∧
       (∀ e2, env.castParam ty (bool_param b) = .error e2 →
          (cast_node env ty (.expr t l r) s).1 = .error e2) ∧
       (cast_node env ty (.expr t l r) s).2.rc s1.fresh = 0 ∧
       s1.fresh < (cast_node env ty (.expr t l r) s).2.fresh) := by
  constructor
  · intro e he
    simp [cast_node, wrap_combine, he]
  · intro b he ha
    refine ⟨?_, ?_, ?_, ?_⟩
    · intro pv hc
      simp [cast_node, wrap_combine, he, filter_new_param, ha,
            filter_cast_param, hc, filter_unref_node]
    · intro e2 hc
      simp [cast_node, wrap_combine, he, filter_new_param, ha,
            filter_cast_param, hc, filter_unref_node]
    · cases hc : env.castParam ty (bool_param b) with
      | ok pv2 =>
        simp only [cast_node, wrap_combine, he, filter_new_param, ha,
                   if_true, filter_cast_param, hc, filter_unref_node]
        split_ifs <;> omega
      | error e2 =>
        simp only [cast_node, wrap_combine, he, filter_new_param, ha,
                   if_true, filter_cast_param, hc, filter_unref_node]
        omega
    · cases hc : env.castParam ty (bool_param b) with
      | ok pv2 =>
        simp only [cast_node, wrap_combine, he, filter_new_param, ha,
                   if_true, filter_cast_param, hc, filter_unref_node]
        omega
      | error e2 =>
        simp only [cast_node, wrap_combine, he, filter_new_param, ha,
                   if_true, filter_cast_param, hc, filter_unref_node]
        omega

theorem C5_cast_expr_witness :
    (cast_node envW .BOOLEAN (.expr .NEG none (some (.param pFalse))) st0).1
        = .ok (st0.fresh + 1, bool_param true) ∧
    (cast_node envW .BOOLEAN
        (.expr .NEG none (some (.param pFalse))) st0).2.rc st0.fresh = 0 :=
  have hev : filter_eval_expr envW .NEG none (some (.param pFalse)) st0
      = (.ok true, st0) := by
    simp [filter_eval_expr, filter_eval_node, envW, rowEval, pFalse,
          bool_param, neg_combine]
  have hc : envW.castParam .BOOLEAN (bool_param true) = .ok (bool_param true) := by
    simp [envW, rowCast, bool_param]
  ⟨((C5_cast_expr envW .BOOLEAN .NEG none (some (.param pFalse)) st0 st0).2
      true hev rfl).1 (bool_param true) hc,
   ((C5_cast_expr envW .BOOLEAN .NEG none (some (.param pFalse)) st0 st0).2
      true hev rfl).2.2.1⟩

/-- C6: evaluating an expression tree never mutates the tree — in this
embedding the evaluator takes the tree as an immutable value and returns
no modified tree — and the reference count of every node that existed
before the call (every id below the heap's fresh mark, which covers every
node of the tree, its root included) is exactly the same in the returned
heap, whether evaluation returns a boolean or an error. -/
theorem C6_eval_preserves_rc (env : Env) (t : filter_etype)
    (l r : Option filter_node) (s : St) (i : Nat) (hi : i < s.fresh) :
    (filter_eval_expr env t l r s).2.rc i = s.rc i := by
  obtain ⟨hf, hr⟩ := eval_expr_rc env t l r s
  rw [hr i, if_neg (by omega)]

theorem C6_eval_preserves_rc_witness :
    (filter_eval_expr envW .AND (some (.param pTrue)) (some (.param pTrue))
        stW).2.rc 0 = stW.rc 0 :=
  C6_eval_preserves_rc envW .AND (some (.param pTrue)) (some (.param pTrue))
    stW 0 (by decide)

/-- C8: casting a node whose kind is neither Expression nor Parameter
fails with InvalidOperand and leaves the heap untouched, and a failed
allocation of the temporary Boolean parameter while casting an Expression
node fails with OutOfMemory, again with no temporary in the heap; in both
cases the cast produces an error, not a result. -/
theorem C8_cast_errors (env : Env) (ty : filter_data) (s : St) :
    cast_node env ty .none_node s = (.error .EINVAL, s) ∧
    (∀ (t : filter_etype) (l r : Option filter_node) (b : Bool) (s1 : St),
       env.allocOK = false →
       filter_eval_expr env t l r s = (.ok b, s1) →
       cast_node env ty (.expr t l r) s = (.error .ENOMEM, s1)) := by
  constructor
  · simp only [cast_node]
  · intro t l r b s1 ha he
    simp [cast_node, wrap_combine, he, filter_new_param, ha]

theorem C8_cast_errors_witness :
    cast_node envW_noalloc .BOOLEAN
        (.expr .NEG none (some (.param pTrue))) st0
      = (.error .ENOMEM, st0) :=
  (C8_cast_errors envW_noalloc .BOOLEAN st0).2 .NEG none
    (some (.param pTrue)) false st0 rfl
    (by simp [filter_eval_expr, filter_eval_node, envW_noalloc, rowEval,
              pTrue, bool_param, neg_combine])

/-- C9: the diagnostic dump of an expression node opens an "expr" object
carrying the node's operator name, recurses into exactly the children that
are present, closes the object, and leaves the reference-count heap (and
the tree, which it only reads) unchanged; the operator names are AND, OR,
EQ, NE, LE, LT, GE, GT, REG, NREG and NOT. -/
theorem C9_dump (t : filter_etype) (l r : Option filter_node) (s : St) :
    (filter_dump_expr t l r s).2 = s ∧
    (filter_dump_expr t l r s).1 =
      [DTok.objOpen "expr", DTok.valS "type" (expr_type_as_string t)]
        ++ (match l with
            | some lc => (filter_dump_node lc s).1
            | none => [])
        ++ (match r with
            | some rcn => (filter_dump_node rcn s).1
            | none => [])
        ++ [DTok.objClose] ∧
    (expr_type_as_string .AND = "AND" ∧ expr_type_as_string .OR = "OR" ∧
     expr_type_as_string .EQ = "EQ" ∧ expr_type_as_string .NE = "NE" ∧
     expr_type_as_string .LE = "LE" ∧ expr_type_as_string .LT = "LT" ∧
     expr_type_as_string .GE = "GE" ∧ expr_type_as_string .GT = "GT" ∧
     expr_type_as_string .REG = "REG" ∧ expr_type_as_string .NREG = "NREG" ∧
     expr_type_as_string .NEG = "NOT") := by
  refine ⟨(dump_master (sizeOf l + sizeOf r)).2 t l r (le_refl _) s, ?_,
          rfl, rfl, rfl, rfl, rfl, rfl, rfl, rfl, rfl, rfl, rfl⟩
  cases l with
  | none =>
    cases r with
    | none => simp [filter_dump_expr]
    | some rcn => simp [filter_dump_expr, dump1_combine]
  | some lc =>
    cases r with
    | none => simp [filter_dump_expr, dump1_combine]
    | some rcn =>
      rcases h1 : filter_dump_node lc s with ⟨dl, s1⟩
      have hs1 : s1 = s := by
        have hh := dump_node_st lc s
        rw [h1] at hh
        exact hh
      rw [hs1] at h1
      rcases h2 : filter_dump_node rcn s with ⟨dr, s2⟩
      simp [filter_dump_expr, dump2_combine, h1, h2]

/-- C10: on the compare path of evaluation every temporary cast parameter
created during the call — left or right, however far the path got before a
failure — has been released exactly once by the time the evaluator
returns: every id at or above the starting fresh mark holds count zero in
the returned heap if it was allocated during the call and its old count
otherwise; and releasing a temporary that was never created (still
absent/NULL) is a no-op. -/
theorem C10_cmp_temporaries (env : Env) (t : filter_etype)
    (l r : Option filter_node) (s : St) (_ht : is_cmp_oper t = true)
    (i : Nat) (hi : s.fresh ≤ i) :
    (filter_unref_node none s = s) ∧
    ((filter_eval_expr env t l r s).2.rc i =
       if i < (filter_eval_expr env t l r s).2.fresh then 0 else s.rc i) := by
  refine ⟨rfl, ?_⟩
  obtain ⟨hf, hr⟩ := eval_expr_rc env t l r s
  rw [hr i]
  split_ifs <;> omega

theorem C10_cmp_temporaries_witness :
    (filter_unref_node none stW = stW) ∧
    ((filter_eval_expr envW .EQ (some (.param pTrue)) (some (.param pTrue))
        stW).2.rc 1 =
      if 1 < (filter_eval_expr envW .EQ (some (.param pTrue))
        (some (.param pTrue)) stW).2.fresh then 0 else stW.rc 1) :=
  C10_cmp_temporaries envW .EQ (some (.param pTrue)) (some (.param pTrue))
    stW rfl 1 (by decide)

end Smartcols
